import Mathlib

/-!
Shallow embedding of the pose-challenge similarity scorer, skeleton renderer
and keypoint normalizer from `src/src/App.tsx`.

Conventions of the embedding:
* JavaScript numbers stored in data structures (coordinates, confidences) are
  modelled as exact rationals `ℚ` (every IEEE double is a rational); the
  similarity computation, which involves `Math.sqrt`, is carried out in `ℝ`.
* `Math.round` is Mathlib's `round` (`⌊x + 1/2⌋`, rounding half up, exactly
  JavaScript's behaviour).
* A thrown JavaScript exception (a `TypeError` from reading a property of
  `undefined` after an out-of-bounds index) is modelled as `Option.none` /
  `Except.error`.  Short-circuit evaluation of `&&` is modelled faithfully:
  the second operand is only inspected when the first holds.
-/

/-- `Keypoint` from `App.tsx`: pixel coordinates, detector confidence and an
optional anatomical name. -/
structure Keypoint where
  x : ℚ
  y : ℚ
  score : ℚ
  name : Option String := none
deriving DecidableEq, Repr

/-- `DetectedPose` from `App.tsx`: the keypoint list plus a pose-level
confidence. -/
structure DetectedPose where
  keypoints : List Keypoint
  score : ℚ
deriving DecidableEq, Repr

/-- The fixed 17-entry anatomical name table `keypointNames`. -/
def keypointNames : List String :=
  ["nose", "left_eye", "right_eye", "left_ear", "right_ear",
   "left_shoulder", "right_shoulder", "left_elbow", "right_elbow",
   "left_wrist", "right_wrist", "left_hip", "right_hip",
   "left_knee", "right_knee", "left_ankle", "right_ankle"]

/-! ## Keypoint normalizer (the `try` block of `detectPose`) -/

/-- A raw keypoint as returned by the external detector; the confidence may be
absent (`kp.score || 0` in the source defaults it to 0). -/
structure RawKeypoint where
  x : ℚ
  y : ℚ
  score : Option ℚ
deriving DecidableEq, Repr

/-- A raw body estimate as returned by `detector.estimatePoses`. -/
structure RawPose where
  keypoints : List RawKeypoint
  score : Option ℚ
deriving DecidableEq, Repr

/-- The body of `poses[0].keypoints.map((kp, index) => ...)`: map each raw
point to a `Keypoint`, attaching `keypointNames[index]` positionally
(`none` models JavaScript `undefined` past the end of the table). -/
def mapWithNames : List RawKeypoint → ℕ → List Keypoint
  | [], _ => []
  | kp :: rest, i =>
    ⟨kp.x, kp.y, kp.score.getD 0, keypointNames[i]?⟩ :: mapWithNames rest (i + 1)

/-- The pure core of `detectPose` (lines 230–245 of `App.tsx`): throw
`人物が検出されませんでした` when the estimate array is empty, otherwise build a
`DetectedPose` from the first estimate. -/
def normalizePose (poses : List RawPose) : Except String DetectedPose :=
  match poses with
  | [] => Except.error "人物が検出されませんでした"
  | first :: _ =>
    Except.ok { keypoints := mapWithNames first.keypoints 0
                score := first.score.getD 0 }

/-! ## Skeleton renderer (`drawPose`) -/

/-- The fixed per-joint color table `moveNetColors` (a JavaScript object keyed
by index; `none` models an absent key). -/
def moveNetColors (i : ℕ) : Option String :=
  ["#FF0000", "#FF00FF", "#FF00FF", "#8000FF", "#8000FF",
   "#00FFFF", "#FF8000", "#00FF00", "#FFFF00", "#80FF80",
   "#FF4000", "#0000FF", "#00FF00", "#0080FF", "#80FF80",
   "#8080FF", "#00FFFF"][i]?

/-- The 12 fixed bone connections of `drawPose`. -/
def connections : List (ℕ × ℕ) :=
  [(5, 6), (5, 7), (7, 9), (6, 8), (8, 10), (5, 11),
   (6, 12), (11, 12), (11, 13), (13, 15), (12, 14), (14, 16)]

/-- Color selection for a bone: the shoulder line `(5,6)` is always red,
other bones use the first endpoint's joint color with fallback `#22c55e`. -/
def lineColorFor (i j : ℕ) : String :=
  if (i = 5 ∧ j = 6) ∨ (i = 6 ∧ j = 5) then "#FF0000"
  else (moveNetColors i).getD "#22c55e"

/-- One stroked bone: both scaled endpoints and the stroke color. -/
structure Segment where
  p1 : ℚ × ℚ
  p2 : ℚ × ℚ
  color : String
deriving DecidableEq, Repr

/-- The `connections.forEach` loop of `drawPose`.  `kps[i]` is fetched for both
endpoints; reading `.score` of an `undefined` first endpoint throws (`none`),
and by `&&` short-circuiting the second endpoint's `.score` is only read when
the first endpoint is valid. -/
def drawConnections (kps : List Keypoint) (sx sy : ℚ) :
    List (ℕ × ℕ) → Option (List Segment)
  | [] => some []
  | (i, j) :: rest =>
    match kps[i]? with
    | none => none
    | some kp1 =>
      if (0.3 : ℚ) < kp1.score then
        match kps[j]? with
        | none => none
        | some kp2 =>
          if (0.3 : ℚ) < kp2.score then
            (drawConnections kps sx sy rest).map
              (fun t => ⟨(kp1.x * sx, kp1.y * sy), (kp2.x * sx, kp2.y * sy),
                         lineColorFor i j⟩ :: t)
          else drawConnections kps sx sy rest
      else drawConnections kps sx sy rest

/-- The `pose.keypoints.forEach((keypoint, index) => ...)` loop of `drawPose`:
every valid keypoint is drawn as a disc at its scaled position, in its joint
color with fallback `#ef4444`. -/
def drawKeypointsAux (sx sy : ℚ) : List Keypoint → ℕ → List ((ℚ × ℚ) × String)
  | [], _ => []
  | kp :: rest, i =>
    if (0.3 : ℚ) < kp.score then
      ((kp.x * sx, kp.y * sy), (moveNetColors i).getD "#ef4444") ::
        drawKeypointsAux sx sy rest (i + 1)
    else drawKeypointsAux sx sy rest (i + 1)

/-- Everything `drawPose` draws onto the canvas: its dimensions, whether the
source image (rather than a black fill) was painted, the stroked bones and the
keypoint discs. -/
structure RenderResult where
  width : ℤ
  height : ℤ
  showedImage : Bool
  segments : List Segment
  points : List ((ℚ × ℚ) × String)
deriving DecidableEq, Repr

/-- `drawPose` (lines 291–382 of `App.tsx`), given the pose, the source image
dimensions and the display toggle.  The canvas is sized to fixed height 300 and
width `Math.round(300 * imageWidth/imageHeight)`; scale factors are taken from
the (rounded) canvas size; `none` models the `TypeError` thrown on an
out-of-bounds bone endpoint. -/
def drawPose (pose : DetectedPose) (imageWidth imageHeight : ℚ)
    (showImage : Bool) : Option RenderResult :=
  match drawConnections pose.keypoints
      ((round ((300 : ℚ) * (imageWidth / imageHeight)) : ℚ) / imageWidth)
      ((300 : ℚ) / imageHeight) connections with
  | none => none
  | some segs =>
    some { width := round ((300 : ℚ) * (imageWidth / imageHeight))
           height := 300
           showedImage := showImage
           segments := segs
           points := drawKeypointsAux
             ((round ((300 : ℚ) * (imageWidth / imageHeight)) : ℚ) / imageWidth)
             ((300 : ℚ) / imageHeight) pose.keypoints 0 }

/-! ## Similarity scorer (`calculateSimilarity`) -/

/-- The planar distance of one keypoint pair:
`sqrt(((x1-x2)/100)^2 + ((y1-y2)/100)^2)` computed in `ℝ`. -/
noncomputable def kpDist (kp1 kp2 : Keypoint) : ℝ :=
  Real.sqrt
    (((kp1.x : ℝ) - (kp2.x : ℝ)) / 100 * (((kp1.x : ℝ) - (kp2.x : ℝ)) / 100) +
      ((kp1.y : ℝ) - (kp2.y : ℝ)) / 100 * (((kp1.y : ℝ) - (kp2.y : ℝ)) / 100))

/-- The `pose1.keypoints.forEach((kp1, index) => ...)` loop of
`calculateSimilarity`, collecting the distances of the pairs where both
keypoints are valid.  `kp2 = pose2.keypoints[index]` may be `undefined`;
reading `kp2.score` then throws (`none`), but only when `kp1.score > 0.3`
because `&&` short-circuits. -/
noncomputable def validPairsFrom :
    List Keypoint → List Keypoint → ℕ → Option (List ℝ)
  | [], _, _ => some []
  | kp1 :: rest, kps2, i =>
    if (0.3 : ℚ) < kp1.score then
      match kps2[i]? with
      | none => none
      | some kp2 =>
        if (0.3 : ℚ) < kp2.score then
          (validPairsFrom rest kps2 (i + 1)).map (fun t => kpDist kp1 kp2 :: t)
        else validPairsFrom rest kps2 (i + 1)
    else validPairsFrom rest kps2 (i + 1)

/-- `calculateSimilarity` (lines 384–444 of `App.tsx`).  Counts the valid
keypoints of each pose, branches on `minValidCount < 8` (severe penalty) vs
`>= 8` (normal), averages the distances of the both-valid pairs, applies the
linear falloff `max(0, (1 - avg/5) * 100)` and rounds.  `none` models a thrown
`TypeError`. -/
noncomputable def calculateSimilarity (pose1 pose2 : DetectedPose) : Option ℤ :=
  let pose1ValidCount :=
    (pose1.keypoints.filter (fun kp => decide ((0.3 : ℚ) < kp.score))).length
  let pose2ValidCount :=
    (pose2.keypoints.filter (fun kp => decide ((0.3 : ℚ) < kp.score))).length
  let minValidCount := min pose1ValidCount pose2ValidCount
  let maxPossibleKeypoints : ℕ := 17
  let detectionQuality : ℝ := (minValidCount : ℝ) / (maxPossibleKeypoints : ℝ)
  if minValidCount < 8 then
    let severePenalty : ℝ := (minValidCount : ℝ) / 8
    let qualityPenalty : ℝ := detectionQuality * severePenalty
    match validPairsFrom pose1.keypoints pose2.keypoints 0 with
    | none => none
    | some validPairs =>
      if validPairs.length = 0 then some 0
      else
        let avgDistance : ℝ := validPairs.sum / (validPairs.length : ℝ)
        let baseSimilarity : ℝ := max 0 ((1 - avgDistance / 5) * 100)
        some (round (baseSimilarity * qualityPenalty))
  else
    match validPairsFrom pose1.keypoints pose2.keypoints 0 with
    | none => none
    | some validPairs =>
      if validPairs.length = 0 then some 0
      else
        let avgDistance : ℝ := validPairs.sum / (validPairs.length : ℝ)
        let baseSimilarity : ℝ := max 0 ((1 - avgDistance / 5) * 100)
        some (round (baseSimilarity * detectionQuality))

/-! ## Derived specification-level views -/

/-- The number of valid keypoints of a keypoint list
(`keypoints.filter((kp) => kp.score > 0.3).length`). -/
def validCount (kps : List Keypoint) : ℕ :=
  (kps.filter (fun kp => decide ((0.3 : ℚ) < kp.score))).length

/-- The list of both-valid pairwise distances of two aligned keypoint lists,
written as a total simultaneous recursion; for lists of equal length it agrees
with the `validPairsFrom` loop (see `validPairsFrom_eq_pairsTotal`). -/
noncomputable def pairsTotal : List Keypoint → List Keypoint → List ℝ
  | [], _ => []
  | _ :: _, [] => []
  | kp1 :: r1, kp2 :: r2 =>
    if (0.3 : ℚ) < kp1.score ∧ (0.3 : ℚ) < kp2.score then
      kpDist kp1 kp2 :: pairsTotal r1 r2
    else pairsTotal r1 r2

/-- The final score as a function of `minValidCount` and the collected pair
distances, matching both branches of `calculateSimilarity`. -/
noncomputable def scoreOfPairs (minValid : ℕ) (pairs : List ℝ) : ℤ :=
  if pairs.length = 0 then 0
  else if minValid < 8 then
    round (max 0 ((1 - pairs.sum / (pairs.length : ℝ) / 5) * 100) *
      (((minValid : ℝ) / 17) * ((minValid : ℝ) / 8)))
  else
    round (max 0 ((1 - pairs.sum / (pairs.length : ℝ) / 5) * 100) *
      ((minValid : ℝ) / 17))

/-- Test keypoint with the given coordinates and confidence, carrying no name. -/
def kpc (x y s : ℚ) : Keypoint := ⟨x, y, s, none⟩

/-- A fully-detected test pose: all 17 keypoints at `(100, 100)` with
confidence 0.9. -/
def poseFull : DetectedPose :=
  ⟨[kpc 100 100 0.9, kpc 100 100 0.9, kpc 100 100 0.9, kpc 100 100 0.9,
    kpc 100 100 0.9, kpc 100 100 0.9, kpc 100 100 0.9, kpc 100 100 0.9,
    kpc 100 100 0.9, kpc 100 100 0.9, kpc 100 100 0.9, kpc 100 100 0.9,
    kpc 100 100 0.9, kpc 100 100 0.9, kpc 100 100 0.9, kpc 100 100 0.9,
    kpc 100 100 0.9], 0.9⟩

/-- A fully-detected test pose shifted to `(600, 600)`. -/
def poseShift : DetectedPose :=
  ⟨[kpc 600 600 0.9, kpc 600 600 0.9, kpc 600 600 0.9, kpc 600 600 0.9,
    kpc 600 600 0.9, kpc 600 600 0.9, kpc 600 600 0.9, kpc 600 600 0.9,
    kpc 600 600 0.9, kpc 600 600 0.9, kpc 600 600 0.9, kpc 600 600 0.9,
    kpc 600 600 0.9, kpc 600 600 0.9, kpc 600 600 0.9, kpc 600 600 0.9,
    kpc 600 600 0.9], 0.9⟩

/-- Scenario with 7 valid keypoints (indices 0–6) at the origin. -/
def poseA1 : DetectedPose :=
  ⟨[kpc 0 0 0.9, kpc 0 0 0.9, kpc 0 0 0.9, kpc 0 0 0.9,
    kpc 0 0 0.9, kpc 0 0 0.9, kpc 0 0 0.9,
    kpc 0 0 0, kpc 0 0 0, kpc 0 0 0, kpc 0 0 0, kpc 0 0 0,
    kpc 0 0 0, kpc 0 0 0, kpc 0 0 0, kpc 0 0 0, kpc 0 0 0], 0.9⟩

/-- Scenario with 7 valid keypoints (indices 0–6) at `(490, 0)`, i.e. planar
distance 4.9 from `poseA1`'s valid keypoints. -/
def poseA2 : DetectedPose :=
  ⟨[kpc 490 0 0.9, kpc 490 0 0.9, kpc 490 0 0.9, kpc 490 0 0.9,
    kpc 490 0 0.9, kpc 490 0 0.9, kpc 490 0 0.9,
    kpc 0 0 0, kpc 0 0 0, kpc 0 0 0, kpc 0 0 0, kpc 0 0 0,
    kpc 0 0 0, kpc 0 0 0, kpc 0 0 0, kpc 0 0 0, kpc 0 0 0], 0.9⟩

/-- Scenario with 8 valid keypoints (indices 0–7) at the origin. -/
def poseB1 : DetectedPose :=
  ⟨[kpc 0 0 0.9, kpc 0 0 0.9, kpc 0 0 0.9, kpc 0 0 0.9,
    kpc 0 0 0.9, kpc 0 0 0.9, kpc 0 0 0.9, kpc 0 0 0.9,
    kpc 0 0 0, kpc 0 0 0, kpc 0 0 0, kpc 0 0 0,
    kpc 0 0 0, kpc 0 0 0, kpc 0 0 0, kpc 0 0 0, kpc 0 0 0], 0.9⟩

/-- Scenario with 8 valid keypoints (indices 0–6 at `(490, 0)`, plus index 8),
so that the overlap with `poseB1` is exactly indices 0–6 with the same
distances as the `poseA1`/`poseA2` scenario. -/
def poseB2 : DetectedPose :=
  ⟨[kpc 490 0 0.9, kpc 490 0 0.9, kpc 490 0 0.9, kpc 490 0 0.9,
    kpc 490 0 0.9, kpc 490 0 0.9, kpc 490 0 0.9,
    kpc 0 0 0, kpc 0 0 0.9, kpc 0 0 0, kpc 0 0 0, kpc 0 0 0,
    kpc 0 0 0, kpc 0 0 0, kpc 0 0 0, kpc 0 0 0, kpc 0 0 0], 0.9⟩

/-- A pose with 8 valid keypoints at indices 9–16, disjoint from `poseB1`'s
valid indices 0–7. -/
def poseDisjoint : DetectedPose :=
  ⟨[kpc 0 0 0, kpc 0 0 0, kpc 0 0 0, kpc 0 0 0, kpc 0 0 0,
    kpc 0 0 0, kpc 0 0 0, kpc 0 0 0, kpc 0 0 0,
    kpc 50 50 0.9, kpc 50 50 0.9, kpc 50 50 0.9, kpc 50 50 0.9,
    kpc 50 50 0.9, kpc 50 50 0.9, kpc 50 50 0.9, kpc 50 50 0.9], 0.9⟩

/-- A 17-keypoint pose at `(200, 100)` whose confidences are all 0, so no
keypoint is valid. -/
def poseGhost : DetectedPose :=
  ⟨[kpc 200 100 0, kpc 200 100 0, kpc 200 100 0, kpc 200 100 0,
    kpc 200 100 0, kpc 200 100 0, kpc 200 100 0, kpc 200 100 0,
    kpc 200 100 0, kpc 200 100 0, kpc 200 100 0, kpc 200 100 0,
    kpc 200 100 0, kpc 200 100 0, kpc 200 100 0, kpc 200 100 0,
    kpc 200 100 0], 0.9⟩

/-- A fully-valid 17-keypoint pose at `(200, 100)`. -/
def poseCenter : DetectedPose :=
  ⟨[kpc 200 100 0.9, kpc 200 100 0.9, kpc 200 100 0.9, kpc 200 100 0.9,
    kpc 200 100 0.9, kpc 200 100 0.9, kpc 200 100 0.9, kpc 200 100 0.9,
    kpc 200 100 0.9, kpc 200 100 0.9, kpc 200 100 0.9, kpc 200 100 0.9,
    kpc 200 100 0.9, kpc 200 100 0.9, kpc 200 100 0.9, kpc 200 100 0.9,
    kpc 200 100 0.9], 0.9⟩

/-- `poseFull` with different keypoint names and a different pose-level score
(the similarity-irrelevant fields). -/
def poseFullRenamed : DetectedPose :=
  ⟨[⟨100, 100, 0.9, some "nose"⟩, ⟨100, 100, 0.9, some "left_eye"⟩,
    kpc 100 100 0.9, kpc 100 100 0.9,
    kpc 100 100 0.9, kpc 100 100 0.9, kpc 100 100 0.9, kpc 100 100 0.9,
    kpc 100 100 0.9, kpc 100 100 0.9, kpc 100 100 0.9, kpc 100 100 0.9,
    kpc 100 100 0.9, kpc 100 100 0.9, kpc 100 100 0.9, kpc 100 100 0.9,
    kpc 100 100 0.9], 0.1⟩

/-- A raw detector output with two points, the second missing its
confidence. -/
def rawSample : RawPose :=
  ⟨[⟨10, 20, some 0.5⟩, ⟨30, 40, none⟩], none⟩

/-- The projection of a keypoint to the fields the scorer may read:
coordinates and confidence, but not the name. -/
def proj (kp : Keypoint) : ℚ × ℚ × ℚ := (kp.x, kp.y, kp.score)

lemma validPairsFrom_eq_pairsTotal (l1 : List Keypoint) :
    ∀ (l2 : List Keypoint) (i : ℕ), i + l1.length ≤ l2.length →
      validPairsFrom l1 l2 i = some (pairsTotal l1 (l2.drop i)) := by
  induction l1 with
  | nil =>
    intro l2 i h
    simp [validPairsFrom, pairsTotal]
  | cons kp1 r1 ih =>
    intro l2 i h
    have hi : i < l2.length := by
      simp only [List.length_cons] at h
      omega
    have hdrop : l2.drop i = l2[i] :: l2.drop (i + 1) := List.drop_eq_getElem_cons hi
    have hget : l2[i]? = some l2[i] := List.getElem?_eq_getElem hi
    have hrec : validPairsFrom r1 l2 (i + 1) = some (pairsTotal r1 (l2.drop (i + 1))) := by
      refine ih l2 (i + 1) ?_
      simp only [List.length_cons] at h
      omega
    rw [hdrop]
    by_cases h1 : (0.3 : ℚ) < kp1.score
    · by_cases h2 : (0.3 : ℚ) < (l2[i]).score
      · simp [validPairsFrom, pairsTotal, h1, h2, hget, hrec]
      · simp [validPairsFrom, pairsTotal, h1, h2, hget, hrec]
    · simp [validPairsFrom, pairsTotal, h1, hrec]

lemma pairsTotal_nonneg :
    ∀ (l1 l2 : List Keypoint) (d : ℝ), d ∈ pairsTotal l1 l2 → 0 ≤ d := by
  intro l1
  induction l1 with
  | nil => intro l2 d hd; simp [pairsTotal] at hd
  | cons kp1 r1 ih =>
    intro l2 d hd
    cases l2 with
    | nil => simp [pairsTotal] at hd
    | cons kp2 r2 =>
      rw [pairsTotal] at hd
      by_cases hc : (0.3 : ℚ) < kp1.score ∧ (0.3 : ℚ) < kp2.score
      · rw [if_pos hc] at hd
        rcases List.mem_cons.mp hd with h | h
        · subst h; exact Real.sqrt_nonneg _
        · exact ih r2 d h
      · rw [if_neg hc] at hd
        exact ih r2 d hd

lemma kpDist_comm (a b : Keypoint) : kpDist a b = kpDist b a := by
  unfold kpDist
  ring_nf

lemma pairsTotal_comm :
    ∀ (l1 l2 : List Keypoint), pairsTotal l1 l2 = pairsTotal l2 l1 := by
  intro l1
  induction l1 with
  | nil =>
    intro l2
    cases l2 <;> simp [pairsTotal]
  | cons kp1 r1 ih =>
    intro l2
    cases l2 with
    | nil => simp [pairsTotal]
    | cons kp2 r2 =>
      rw [pairsTotal, pairsTotal]
      by_cases hc : (0.3 : ℚ) < kp1.score ∧ (0.3 : ℚ) < kp2.score
      · rw [if_pos hc, if_pos (And.symm hc), kpDist_comm, ih]
      · rw [if_neg hc, if_neg (fun h => hc (And.symm h)), ih]

lemma round_mono_le {x y : ℝ} (h : x ≤ y) : round x ≤ round y := by
  rw [round_eq, round_eq]
  exact Int.floor_le_floor (by linarith)

lemma round_nonneg_of_nonneg {x : ℝ} (h : 0 ≤ x) : 0 ≤ round x := by
  rw [round_eq]
  exact Int.floor_nonneg.mpr (by linarith)

lemma round_le_hundred {x : ℝ} (h : x ≤ 100) : round x ≤ 100 := by
  have h1 : round x ≤ round (100 : ℝ) := round_mono_le h
  simpa using h1

lemma calculateSimilarity_eq (p1 p2 : DetectedPose)
    (h1 : p1.keypoints.length = 17) (h2 : p2.keypoints.length = 17) :
    calculateSimilarity p1 p2 =
      some (scoreOfPairs (min (validCount p1.keypoints) (validCount p2.keypoints))
        (pairsTotal p1.keypoints p2.keypoints)) := by
  have hb : validPairsFrom p1.keypoints p2.keypoints 0 =
      some (pairsTotal p1.keypoints p2.keypoints) := by
    have h := validPairsFrom_eq_pairsTotal p1.keypoints p2.keypoints 0 (by omega)
    simpa using h
  unfold calculateSimilarity scoreOfPairs validCount
  simp only [hb]
  by_cases hmin :
      min ((p1.keypoints.filter (fun kp => decide ((0.3 : ℚ) < kp.score))).length)
        ((p2.keypoints.filter (fun kp => decide ((0.3 : ℚ) < kp.score))).length) < 8 <;>
    by_cases hlen : (pairsTotal p1.keypoints p2.keypoints).length = 0 <;>
      simp [hmin, hlen]

lemma round_bound_mul {b q : ℝ} (hb0 : 0 ≤ b) (hb : b ≤ 100) (hq0 : 0 ≤ q)
    (hq : q ≤ 1) : 0 ≤ round (b * q) ∧ round (b * q) ≤ 100 := by
  constructor
  · exact round_nonneg_of_nonneg (mul_nonneg hb0 hq0)
  · refine round_le_hundred ?_
    nlinarith

lemma scoreOfPairs_bounds (m : ℕ) (pairs : List ℝ) (hm : m ≤ 17)
    (hp : ∀ d ∈ pairs, 0 ≤ d) :
    0 ≤ scoreOfPairs m pairs ∧ scoreOfPairs m pairs ≤ 100 := by
  unfold scoreOfPairs
  by_cases hlen : pairs.length = 0
  · rw [if_pos hlen]
    norm_num
  · rw [if_neg hlen]
    have hsum : 0 ≤ pairs.sum := List.sum_nonneg hp
    have hlpos : 0 < (pairs.length : ℝ) := by
      have h := Nat.pos_of_ne_zero hlen
      exact_mod_cast h
    have havg0 : 0 ≤ pairs.sum / (pairs.length : ℝ) :=
      div_nonneg hsum (le_of_lt hlpos)
    have hb0 : (0 : ℝ) ≤ max 0 ((1 - pairs.sum / (pairs.length : ℝ) / 5) * 100) :=
      le_max_left _ _
    have hb100 : max 0 ((1 - pairs.sum / (pairs.length : ℝ) / 5) * 100) ≤ 100 := by
      apply max_le (by norm_num)
      nlinarith
    have hm17 : ((m : ℝ) / 17) ≤ 1 := by
      rw [div_le_one (by norm_num)]
      exact_mod_cast hm
    have hm170 : (0 : ℝ) ≤ ((m : ℝ) / 17) := by positivity
    by_cases hmin : m < 8
    · rw [if_pos hmin]
      have h8 : ((m : ℝ) / 8) ≤ 1 := by
        rw [div_le_one (by norm_num)]
        have h : m ≤ 8 := le_of_lt hmin
        exact_mod_cast h
      have hq0 : (0 : ℝ) ≤ ((m : ℝ) / 17) * ((m : ℝ) / 8) := by positivity
      have hq1 : ((m : ℝ) / 17) * ((m : ℝ) / 8) ≤ 1 := by nlinarith
      exact round_bound_mul hb0 hb100 hq0 hq1
    · rw [if_neg hmin]
      exact round_bound_mul hb0 hb100 hm170 hm17

lemma validCount_le (kps : List Keypoint) : validCount kps ≤ kps.length :=
  List.length_filter_le _ kps

/-- C1: for 17-keypoint poses, `calculateSimilarity` raises no error and its
result is an integer between 0 and 100. -/
theorem c1_score_range (p1 p2 : DetectedPose)
    (h1 : p1.keypoints.length = 17) (h2 : p2.keypoints.length = 17) :
    ∃ s : ℤ, calculateSimilarity p1 p2 = some s ∧ 0 ≤ s ∧ s ≤ 100 := by
  refine ⟨_, calculateSimilarity_eq p1 p2 h1 h2, ?_⟩
  have hm : min (validCount p1.keypoints) (validCount p2.keypoints) ≤ 17 := by
    have h := validCount_le p1.keypoints
    have h' := min_le_left (validCount p1.keypoints) (validCount p2.keypoints)
    omega
  exact scoreOfPairs_bounds _ _ hm (pairsTotal_nonneg _ _)

/-- Witness for C1 at a concrete pair of fully-detected poses. -/
theorem c1_score_range_witness :
    poseFull.keypoints.length = 17 ∧ poseShift.keypoints.length = 17 ∧
      ∃ s : ℤ, calculateSimilarity poseFull poseShift = some s ∧ 0 ≤ s ∧ s ≤ 100 :=
  ⟨by decide, by decide,
    c1_score_range poseFull poseShift (by decide) (by decide)⟩

/-- C2: for 17-keypoint poses, `calculateSimilarity` is symmetric in its two
arguments. -/
theorem c2_symmetry (p1 p2 : DetectedPose)
    (h1 : p1.keypoints.length = 17) (h2 : p2.keypoints.length = 17) :
    calculateSimilarity p1 p2 = calculateSimilarity p2 p1 := by
  rw [calculateSimilarity_eq p1 p2 h1 h2, calculateSimilarity_eq p2 p1 h2 h1,
    pairsTotal_comm, min_comm]

/-- Witness for C2 at a concrete pair of poses. -/
theorem c2_symmetry_witness :
    poseFull.keypoints.length = 17 ∧ poseShift.keypoints.length = 17 ∧
      calculateSimilarity poseFull poseShift = calculateSimilarity poseShift poseFull :=
  ⟨by decide, by decide, c2_symmetry poseFull poseShift (by decide) (by decide)⟩

@[simp] lemma kpc_x (x y s : ℚ) : (kpc x y s).x = x := rfl

@[simp] lemma kpc_y (x y s : ℚ) : (kpc x y s).y = y := rfl

@[simp] lemma kpc_score (x y s : ℚ) : (kpc x y s).score = s := rfl

/-- C3: for 17-keypoint poses with at least one index where both keypoints are
valid, the result is `round(baseSimilarity * detectionQuality * (minValid/8))`
when `minValid < 8`, and `round(baseSimilarity * detectionQuality)` when
`minValid >= 8` (so `minValid == 8` uses the non-severe branch), where
`baseSimilarity = max 0 ((1 - avgDistance/5) * 100)` and
`detectionQuality = minValid/17`. -/
theorem c3_regime_formulas (p1 p2 : DetectedPose)
    (h1 : p1.keypoints.length = 17) (h2 : p2.keypoints.length = 17)
    (hne : pairsTotal p1.keypoints p2.keypoints ≠ []) :
    (min (validCount p1.keypoints) (validCount p2.keypoints) < 8 →
      calculateSimilarity p1 p2 =
        some (round
          (max 0 ((1 - (pairsTotal p1.keypoints p2.keypoints).sum /
              ((pairsTotal p1.keypoints p2.keypoints).length : ℝ) / 5) * 100) *
            (((min (validCount p1.keypoints) (validCount p2.keypoints) : ℕ) : ℝ) / 17) *
            (((min (validCount p1.keypoints) (validCount p2.keypoints) : ℕ) : ℝ) / 8)))) ∧
    (8 ≤ min (validCount p1.keypoints) (validCount p2.keypoints) →
      calculateSimilarity p1 p2 =
        some (round
          (max 0 ((1 - (pairsTotal p1.keypoints p2.keypoints).sum /
              ((pairsTotal p1.keypoints p2.keypoints).length : ℝ) / 5) * 100) *
            (((min (validCount p1.keypoints) (validCount p2.keypoints) : ℕ) : ℝ) / 17)))) := by
  rw [calculateSimilarity_eq p1 p2 h1 h2]
  have hlen : (pairsTotal p1.keypoints p2.keypoints).length ≠ 0 := by
    simpa [List.length_eq_zero] using hne
  constructor
  · intro hm
    unfold scoreOfPairs
    rw [if_neg hlen, if_pos hm, mul_assoc]
  · intro hm
    unfold scoreOfPairs
    rw [if_neg hlen, if_neg (not_lt.mpr hm)]

/-- Witness for C3 at a concrete pair of fully-detected poses (normal
regime). -/
theorem c3_regime_formulas_witness :
    pairsTotal poseFull.keypoints poseShift.keypoints ≠ [] ∧
    8 ≤ min (validCount poseFull.keypoints) (validCount poseShift.keypoints) ∧
    calculateSimilarity poseFull poseShift =
      some (round
        (max 0 ((1 - (pairsTotal poseFull.keypoints poseShift.keypoints).sum /
            ((pairsTotal poseFull.keypoints poseShift.keypoints).length : ℝ) / 5) * 100) *
          (((min (validCount poseFull.keypoints) (validCount poseShift.keypoints) : ℕ) : ℝ) / 17))) := by
  have hne : pairsTotal poseFull.keypoints poseShift.keypoints ≠ [] := by
    norm_num [poseFull, poseShift, pairsTotal]
    exact List.cons_ne_nil _ _
  have hcount : 8 ≤ min (validCount poseFull.keypoints) (validCount poseShift.keypoints) := by
    norm_num [validCount, poseFull, poseShift]
  exact ⟨hne, hcount,
    (c3_regime_formulas poseFull poseShift (by decide) (by decide) hne).2 hcount⟩

lemma pairsTotal_eq_nil (l1 : List Keypoint) :
    ∀ l2 : List Keypoint,
      (∀ i, i < min l1.length l2.length →
        ¬((0.3 : ℚ) < (l1.getD i (kpc 0 0 0)).score ∧
          (0.3 : ℚ) < (l2.getD i (kpc 0 0 0)).score)) →
      pairsTotal l1 l2 = [] := by
  induction l1 with
  | nil =>
    intro l2 h
    cases l2 <;> simp [pairsTotal]
  | cons kp1 r1 ih =>
    intro l2 h
    cases l2 with
    | nil => simp [pairsTotal]
    | cons kp2 r2 =>
      rw [pairsTotal]
      have h0 := h 0 (lt_min_iff.mpr ⟨Nat.succ_pos _, Nat.succ_pos _⟩)
      simp only [List.getD_cons_zero] at h0
      rw [if_neg h0]
      apply ih
      intro i hi
      have hstep : i + 1 < min (kp1 :: r1).length (kp2 :: r2).length := by
        simp only [List.length_cons, lt_min_iff] at hi ⊢
        omega
      have hh := h (i + 1) hstep
      simpa [List.getD_cons_succ] using hh

/-- C4: for 17-keypoint poses, scoring raises no error, and when there is no
index at which both poses have a valid keypoint it returns 0. -/
theorem c4_zero_overlap (p1 p2 : DetectedPose)
    (h1 : p1.keypoints.length = 17) (h2 : p2.keypoints.length = 17) :
    (∃ s, calculateSimilarity p1 p2 = some s) ∧
    ((∀ i, i < 17 →
        ¬((0.3 : ℚ) < (p1.keypoints.getD i (kpc 0 0 0)).score ∧
          (0.3 : ℚ) < (p2.keypoints.getD i (kpc 0 0 0)).score)) →
      calculateSimilarity p1 p2 = some 0) := by
  constructor
  · exact ⟨_, calculateSimilarity_eq p1 p2 h1 h2⟩
  · intro hno
    rw [calculateSimilarity_eq p1 p2 h1 h2]
    have hnil : pairsTotal p1.keypoints p2.keypoints = [] := by
      apply pairsTotal_eq_nil
      intro i hi
      rw [h1, h2, min_self] at hi
      exact hno i hi
    rw [hnil]
    simp [scoreOfPairs]

/-- Witness for C4 at concrete poses with disjoint valid keypoint sets. -/
theorem c4_zero_overlap_witness :
    poseB1.keypoints.length = 17 ∧ poseDisjoint.keypoints.length = 17 ∧
    calculateSimilarity poseB1 poseDisjoint = some 0 := by
  refine ⟨by decide, by decide, ?_⟩
  refine (c4_zero_overlap poseB1 poseDisjoint (by decide) (by decide)).2 ?_
  intro i hi
  interval_cases i <;> norm_num [poseB1, poseDisjoint]

lemma scoreOfPairs_7_le_8 (L : List ℝ) : scoreOfPairs 7 L ≤ scoreOfPairs 8 L := by
  unfold scoreOfPairs
  by_cases hlen : L.length = 0
  · rw [if_pos hlen, if_pos hlen]
  · rw [if_neg hlen, if_neg hlen, if_pos (by norm_num : (7 : ℕ) < 8),
      if_neg (by norm_num : ¬((8 : ℕ) < 8))]
    apply round_mono_le
    have hb0 : (0 : ℝ) ≤ max 0 ((1 - L.sum / (L.length : ℝ) / 5) * 100) :=
      le_max_left _ _
    have hq : (((7 : ℕ) : ℝ) / 17) * (((7 : ℕ) : ℝ) / 8) ≤ ((8 : ℕ) : ℝ) / 17 := by
      norm_num
    exact mul_le_mul_of_nonneg_left hq hb0

/-- C5 (amended): with identical pair-distance lists and `minValid` 7 vs 8, the
`minValid = 7` score never exceeds the `minValid = 8` score; strictness can
fail because both products may round to the same integer. -/
theorem c5_regime_boundary (p1 p2 q1 q2 : DetectedPose)
    (hp1 : p1.keypoints.length = 17) (hp2 : p2.keypoints.length = 17)
    (hq1 : q1.keypoints.length = 17) (hq2 : q2.keypoints.length = 17)
    (hm7 : min (validCount p1.keypoints) (validCount p2.keypoints) = 7)
    (hm8 : min (validCount q1.keypoints) (validCount q2.keypoints) = 8)
    (hpairs : pairsTotal p1.keypoints p2.keypoints =
      pairsTotal q1.keypoints q2.keypoints) :
    ∃ s7 s8 : ℤ, calculateSimilarity p1 p2 = some s7 ∧
      calculateSimilarity q1 q2 = some s8 ∧ s7 ≤ s8 := by
  refine ⟨_, _, calculateSimilarity_eq p1 p2 hp1 hp2,
    calculateSimilarity_eq q1 q2 hq1 hq2, ?_⟩
  rw [hm7, hm8, hpairs]
  exact scoreOfPairs_7_le_8 _

lemma kpDist_490 : kpDist (kpc 0 0 (9 / 10)) (kpc 490 0 (9 / 10)) = 49 / 10 := by
  unfold kpDist
  simp only [kpc_x, kpc_y]
  rw [show (((0 : ℚ) : ℝ) - ((490 : ℚ) : ℝ)) / 100 *
        ((((0 : ℚ) : ℝ) - ((490 : ℚ) : ℝ)) / 100) +
        (((0 : ℚ) : ℝ) - ((0 : ℚ) : ℝ)) / 100 *
        ((((0 : ℚ) : ℝ) - ((0 : ℚ) : ℝ)) / 100) = ((49 : ℝ) / 10) ^ 2 by
      push_cast; norm_num]
  rw [Real.sqrt_sq (by norm_num)]

lemma scoreOfPairs_7_sample :
    scoreOfPairs 7 [(4.9 : ℝ), 4.9, 4.9, 4.9, 4.9, 4.9, 4.9] = 1 := by
  unfold scoreOfPairs
  rw [if_neg (by norm_num), if_pos (by norm_num : (7 : ℕ) < 8)]
  rw [show max (0 : ℝ) ((1 - [(4.9 : ℝ), 4.9, 4.9, 4.9, 4.9, 4.9, 4.9].sum /
      (([(4.9 : ℝ), 4.9, 4.9, 4.9, 4.9, 4.9, 4.9].length : ℕ) : ℝ) / 5) * 100) = 2 by
    rw [show ((1 : ℝ) - [(4.9 : ℝ), 4.9, 4.9, 4.9, 4.9, 4.9, 4.9].sum /
        (([(4.9 : ℝ), 4.9, 4.9, 4.9, 4.9, 4.9, 4.9].length : ℕ) : ℝ) / 5) * 100 = 2 by
      norm_num]
    exact max_eq_right (by norm_num)]
  rw [show (2 : ℝ) * ((((7 : ℕ) : ℝ)) / 17 * ((((7 : ℕ) : ℝ)) / 8)) = 49 / 68 by
    norm_num]
  rw [round_eq, show (49 : ℝ) / 68 + 1 / 2 = 83 / 68 by norm_num]
  exact Int.floor_eq_iff.mpr ⟨by norm_num, by norm_num⟩

lemma scoreOfPairs_8_sample :
    scoreOfPairs 8 [(4.9 : ℝ), 4.9, 4.9, 4.9, 4.9, 4.9, 4.9] = 1 := by
  unfold scoreOfPairs
  rw [if_neg (by norm_num), if_neg (by norm_num : ¬((8 : ℕ) < 8))]
  rw [show max (0 : ℝ) ((1 - [(4.9 : ℝ), 4.9, 4.9, 4.9, 4.9, 4.9, 4.9].sum /
      (([(4.9 : ℝ), 4.9, 4.9, 4.9, 4.9, 4.9, 4.9].length : ℕ) : ℝ) / 5) * 100) = 2 by
    rw [show ((1 : ℝ) - [(4.9 : ℝ), 4.9, 4.9, 4.9, 4.9, 4.9, 4.9].sum /
        (([(4.9 : ℝ), 4.9, 4.9, 4.9, 4.9, 4.9, 4.9].length : ℕ) : ℝ) / 5) * 100 = 2 by
      norm_num]
    exact max_eq_right (by norm_num)]
  rw [show (2 : ℝ) * (((8 : ℕ) : ℝ) / 17) = 16 / 17 by norm_num]
  rw [round_eq, show (16 : ℝ) / 17 + 1 / 2 = 49 / 34 by norm_num]
  exact Int.floor_eq_iff.mpr ⟨by norm_num, by norm_num⟩

/-- Counterexample for C5: two scenarios with identical per-index distances
over the same overlapping valid indices, `minValid` 7 vs 8, whose scores are
both 1 — equal but nonzero, contradicting "strictly lower or equal only when
both are zero". -/
theorem c5_counterexample :
    validCount poseA1.keypoints = 7 ∧ validCount poseA2.keypoints = 7 ∧
    validCount poseB1.keypoints = 8 ∧ validCount poseB2.keypoints = 8 ∧
    pairsTotal poseA1.keypoints poseA2.keypoints =
      pairsTotal poseB1.keypoints poseB2.keypoints ∧
    calculateSimilarity poseA1 poseA2 = some 1 ∧
    calculateSimilarity poseB1 poseB2 = some 1 ∧
    ¬((1 : ℤ) < 1 ∨ ((1 : ℤ) = 0 ∧ (1 : ℤ) = 0)) := by
  have e1 : validCount poseA1.keypoints = 7 := by norm_num [validCount, poseA1]
  have e2 : validCount poseA2.keypoints = 7 := by norm_num [validCount, poseA2]
  have e3 : validCount poseB1.keypoints = 8 := by norm_num [validCount, poseB1]
  have e4 : validCount poseB2.keypoints = 8 := by norm_num [validCount, poseB2]
  have hLA : pairsTotal poseA1.keypoints poseA2.keypoints =
      [(4.9 : ℝ), 4.9, 4.9, 4.9, 4.9, 4.9, 4.9] := by
    norm_num [poseA1, poseA2, pairsTotal, kpDist_490]
  have hLB : pairsTotal poseB1.keypoints poseB2.keypoints =
      [(4.9 : ℝ), 4.9, 4.9, 4.9, 4.9, 4.9, 4.9] := by
    norm_num [poseB1, poseB2, pairsTotal, kpDist_490]
  refine ⟨e1, e2, e3, e4, by rw [hLA, hLB], ?_, ?_, by norm_num⟩
  · rw [calculateSimilarity_eq poseA1 poseA2 (by decide) (by decide),
      e1, e2, min_self, hLA, scoreOfPairs_7_sample]
  · rw [calculateSimilarity_eq poseB1 poseB2 (by decide) (by decide),
      e3, e4, min_self, hLB, scoreOfPairs_8_sample]

lemma forall2_sum_le {L1 L2 : List ℝ} (h : List.Forall₂ (· ≤ ·) L1 L2) :
    L1.sum ≤ L2.sum := by
  induction h with
  | nil => simp
  | cons hab _ ih =>
    simp only [List.sum_cons]
    exact add_le_add hab ih

lemma scoreOfPairs_anti (m : ℕ) {L1 L2 : List ℝ}
    (h : List.Forall₂ (· ≤ ·) L1 L2) : scoreOfPairs m L2 ≤ scoreOfPairs m L1 := by
  have hlen : L1.length = L2.length := List.Forall₂.length_eq h
  unfold scoreOfPairs
  by_cases h0 : L1.length = 0
  · rw [if_pos h0, if_pos (hlen ▸ h0)]
  · rw [if_neg h0, if_neg (hlen ▸ h0)]
    have hsum := forall2_sum_le h
    have hlpos : (0 : ℝ) < (L1.length : ℝ) := by
      have hp := Nat.pos_of_ne_zero h0
      exact_mod_cast hp
    have havg : L1.sum / (L1.length : ℝ) ≤ L2.sum / (L2.length : ℝ) := by
      rw [← hlen]
      exact (div_le_div_iff_of_pos_right hlpos).mpr hsum
    have hbase : max 0 ((1 - L2.sum / (L2.length : ℝ) / 5) * 100) ≤
        max 0 ((1 - L1.sum / (L1.length : ℝ) / 5) * 100) := by
      apply max_le_max le_rfl
      linarith
    by_cases hm : m < 8
    · rw [if_pos hm, if_pos hm]
      exact round_mono_le (mul_le_mul_of_nonneg_right hbase (by positivity))
    · rw [if_neg hm, if_neg hm]
      exact round_mono_le (mul_le_mul_of_nonneg_right hbase (by positivity))

lemma validCount_congr {l1 l2 : List Keypoint}
    (h : l1.map Keypoint.score = l2.map Keypoint.score) :
    validCount l1 = validCount l2 := by
  unfold validCount
  rw [← List.countP_eq_length_filter, ← List.countP_eq_length_filter]
  have h1 : l1.countP (fun kp => decide ((0.3 : ℚ) < kp.score)) =
      (l1.map Keypoint.score).countP (fun s => decide ((0.3 : ℚ) < s)) := by
    rw [List.countP_map]
    rfl
  have h2 : l2.countP (fun kp => decide ((0.3 : ℚ) < kp.score)) =
      (l2.map Keypoint.score).countP (fun s => decide ((0.3 : ℚ) < s)) := by
    rw [List.countP_map]
    rfl
  rw [h1, h2, h]

/-- C6: with all confidences (hence valid-index sets) fixed, pointwise
increasing the pair distances never increases the score; in particular
increasing any single pairwise distance never does. -/
theorem c6_monotonicity (p1 p2 q1 q2 : DetectedPose)
    (hp1 : p1.keypoints.length = 17) (hp2 : p2.keypoints.length = 17)
    (hq1 : q1.keypoints.length = 17) (hq2 : q2.keypoints.length = 17)
    (hs1 : p1.keypoints.map Keypoint.score = q1.keypoints.map Keypoint.score)
    (hs2 : p2.keypoints.map Keypoint.score = q2.keypoints.map Keypoint.score)
    (hd : List.Forall₂ (· ≤ ·) (pairsTotal p1.keypoints p2.keypoints)
      (pairsTotal q1.keypoints q2.keypoints)) :
    ∃ s t : ℤ, calculateSimilarity p1 p2 = some s ∧
      calculateSimilarity q1 q2 = some t ∧ t ≤ s := by
  refine ⟨_, _, calculateSimilarity_eq p1 p2 hp1 hp2,
    calculateSimilarity_eq q1 q2 hq1 hq2, ?_⟩
  rw [← validCount_congr hs1, ← validCount_congr hs2]
  exact scoreOfPairs_anti _ hd

/-- Witness for C6 at a concrete pair of scenarios. -/
theorem c6_monotonicity_witness :
    poseFull.keypoints.length = 17 ∧ poseShift.keypoints.length = 17 ∧
    ∃ s t : ℤ, calculateSimilarity poseFull poseShift = some s ∧
      calculateSimilarity poseFull poseShift = some t ∧ t ≤ s :=
  ⟨by decide, by decide,
    c6_monotonicity poseFull poseShift poseFull poseShift
      (by decide) (by decide) (by decide) (by decide) rfl rfl
      (List.forall₂_same.mpr fun x _ => le_refl x)⟩

lemma kpDist_proj {a a' b b' : Keypoint} (ha : proj a = proj a')
    (hb : proj b = proj b') : kpDist a b = kpDist a' b' := by
  have hax : a.x = a'.x := congrArg (fun t => t.1) ha
  have hay : a.y = a'.y := congrArg (fun t => t.2.1) ha
  have hbx : b.x = b'.x := congrArg (fun t => t.1) hb
  have hby : b.y = b'.y := congrArg (fun t => t.2.1) hb
  unfold kpDist
  rw [hax, hay, hbx, hby]

lemma validPairsFrom_proj (l1 : List Keypoint) :
    ∀ (l1' l2 l2' : List Keypoint) (i : ℕ),
      l1.map proj = l1'.map proj → l2.map proj = l2'.map proj →
      validPairsFrom l1 l2 i = validPairsFrom l1' l2' i := by
  induction l1 with
  | nil =>
    intro l1' l2 l2' i h1 h2
    cases l1' with
    | nil => rfl
    | cons a l => simp at h1
  | cons kp r ih =>
    intro l1' l2 l2' i h1 h2
    cases l1' with
    | nil => simp at h1
    | cons kp' r' =>
      simp only [List.map_cons, List.cons.injEq] at h1
      obtain ⟨hkp, hr⟩ := h1
      have hs : kp.score = kp'.score := congrArg (fun t => t.2.2) hkp
      have hget : l2[i]?.map proj = l2'[i]?.map proj := by
        rw [← List.getElem?_map, ← List.getElem?_map, h2]
      rw [validPairsFrom, validPairsFrom, hs]
      by_cases hv : (0.3 : ℚ) < kp'.score
      · rw [if_pos hv, if_pos hv]
        cases hl2 : l2[i]? with
        | none =>
          cases hl2' : l2'[i]? with
          | none => rfl
          | some b' =>
            rw [hl2, hl2'] at hget
            simp at hget
        | some b =>
          cases hl2' : l2'[i]? with
          | none =>
            rw [hl2, hl2'] at hget
            simp at hget
          | some b' =>
            rw [hl2, hl2'] at hget
            simp only [Option.map_some'] at hget
            have hb : proj b = proj b' := Option.some.inj hget
            have hbs : b.score = b'.score := congrArg (fun t => t.2.2) hb
            dsimp only
            rw [hbs]
            by_cases hv2 : (0.3 : ℚ) < b'.score
            · rw [if_pos hv2, if_pos hv2, ih r' l2 l2' (i + 1) hr h2,
                kpDist_proj hkp hb]
            · rw [if_neg hv2, if_neg hv2]
              exact ih r' l2 l2' (i + 1) hr h2
      · rw [if_neg hv, if_neg hv]
        exact ih r' l2 l2' (i + 1) hr h2

/-- C9: the similarity score depends only on the coordinates and confidences
of the keypoints; keypoint names and the pose-level score are ignored
(two-run noninterference). -/
theorem c9_noninterference (p1 p2 q1 q2 : DetectedPose)
    (h1 : p1.keypoints.map proj = q1.keypoints.map proj)
    (h2 : p2.keypoints.map proj = q2.keypoints.map proj) :
    calculateSimilarity p1 p2 = calculateSimilarity q1 q2 := by
  have hs1 : p1.keypoints.map Keypoint.score = q1.keypoints.map Keypoint.score := by
    have hc := congrArg (List.map (fun t : ℚ × ℚ × ℚ => t.2.2)) h1
    simpa [List.map_map, Function.comp] using hc
  have hs2 : p2.keypoints.map Keypoint.score = q2.keypoints.map Keypoint.score := by
    have hc := congrArg (List.map (fun t : ℚ × ℚ × ℚ => t.2.2)) h2
    simpa [List.map_map, Function.comp] using hc
  have hc1 : (p1.keypoints.filter (fun kp => decide ((0.3 : ℚ) < kp.score))).length =
      (q1.keypoints.filter (fun kp => decide ((0.3 : ℚ) < kp.score))).length :=
    validCount_congr hs1
  have hc2 : (p2.keypoints.filter (fun kp => decide ((0.3 : ℚ) < kp.score))).length =
      (q2.keypoints.filter (fun kp => decide ((0.3 : ℚ) < kp.score))).length :=
    validCount_congr hs2
  have hv : validPairsFrom p1.keypoints p2.keypoints 0 =
      validPairsFrom q1.keypoints q2.keypoints 0 :=
    validPairsFrom_proj _ _ _ _ 0 h1 h2
  unfold calculateSimilarity
  rw [hc1, hc2, hv]

/-- Witness for C9: renaming keypoints and changing the pose-level score
leaves the similarity unchanged. -/
theorem c9_noninterference_witness :
    poseFull.keypoints.map proj = poseFullRenamed.keypoints.map proj ∧
    poseFull.score ≠ poseFullRenamed.score ∧
    calculateSimilarity poseFull poseShift =
      calculateSimilarity poseFullRenamed poseShift := by
  refine ⟨rfl, by norm_num [poseFull, poseFullRenamed], ?_⟩
  exact c9_noninterference poseFull poseShift poseFullRenamed poseShift rfl rfl

lemma drawConnections_isSome (kps : List Keypoint) (sx sy : ℚ) :
    ∀ cs : List (ℕ × ℕ),
      (∀ p ∈ cs, p.1 < kps.length ∧ p.2 < kps.length) →
      (drawConnections kps sx sy cs).isSome = true := by
  intro cs
  induction cs with
  | nil => intro _; rfl
  | cons c rest ih =>
    intro hmem
    obtain ⟨i, j⟩ := c
    obtain ⟨hi, hj⟩ := hmem (i, j) (List.mem_cons_self _ _)
    have hrest : ∀ p ∈ rest, p.1 < kps.length ∧ p.2 < kps.length :=
      fun p hp => hmem p (List.mem_cons_of_mem _ hp)
    have hsome := ih hrest
    rw [drawConnections, List.getElem?_eq_getElem hi]
    dsimp only
    by_cases h1 : (0.3 : ℚ) < (kps[i]).score
    · rw [if_pos h1, List.getElem?_eq_getElem hj]
      dsimp only
      by_cases h2 : (0.3 : ℚ) < (kps[j]).score
      · rw [if_pos h2]
        obtain ⟨t, ht⟩ := Option.isSome_iff_exists.mp hsome
        rw [ht]
        rfl
      · rw [if_neg h2]
        exact hsome
    · rw [if_neg h1]
      exact hsome

lemma drawPose_eq_some (pose : DetectedPose) (w h : ℚ) (flag : Bool)
    (hlen : pose.keypoints.length = 17) :
    ∃ segs, drawPose pose w h flag = some
      { width := round ((300 : ℚ) * (w / h))
        height := 300
        showedImage := flag
        segments := segs
        points := drawKeypointsAux ((round ((300 : ℚ) * (w / h)) : ℚ) / w)
          ((300 : ℚ) / h) pose.keypoints 0 } := by
  have hc : ∀ p ∈ connections,
      p.1 < pose.keypoints.length ∧ p.2 < pose.keypoints.length := by
    rw [hlen]
    decide
  have hs := drawConnections_isSome pose.keypoints
    ((round ((300 : ℚ) * (w / h)) : ℚ) / w) ((300 : ℚ) / h) connections hc
  obtain ⟨segs, hsegs⟩ := Option.isSome_iff_exists.mp hs
  refine ⟨segs, ?_⟩
  unfold drawPose
  rw [hsegs]

lemma drawKeypointsAux_mem (sx sy : ℚ) :
    ∀ (kps : List Keypoint) (i0 j : ℕ) (kp : Keypoint),
      kps[j]? = some kp → (0.3 : ℚ) < kp.score →
      ((kp.x * sx, kp.y * sy), (moveNetColors (i0 + j)).getD "#ef4444") ∈
        drawKeypointsAux sx sy kps i0 := by
  intro kps
  induction kps with
  | nil =>
    intro i0 j kp hj
    simp at hj
  | cons a rest ih =>
    intro i0 j kp hj hv
    cases j with
    | zero =>
      simp only [List.getElem?_cons_zero, Option.some.injEq] at hj
      subst hj
      rw [drawKeypointsAux, if_pos hv, Nat.add_zero]
      exact List.mem_cons_self _ _
    | succ j' =>
      simp only [List.getElem?_cons_succ] at hj
      have hmem := ih (i0 + 1) j' kp hj hv
      have harith : i0 + 1 + j' = i0 + (j' + 1) := by omega
      rw [harith] at hmem
      rw [drawKeypointsAux]
      by_cases ha : (0.3 : ℚ) < a.score
      · rw [if_pos ha]
        exact List.mem_cons_of_mem _ hmem
      · rw [if_neg ha]
        exact hmem

/-- C7 (amended): `drawPose` sizes the canvas to height 300 and width
`round(300 * imageWidth/imageHeight)`, and draws every keypoint whose
confidence exceeds 0.3 at `(x * canvasWidth/imageWidth,
y * canvasHeight/imageHeight)`; keypoints at or below confidence 0.3 are not
drawn at all. -/
theorem c7_renderer_geometry (pose : DetectedPose) (w h : ℚ) (flag : Bool)
    (hlen : pose.keypoints.length = 17) :
    ∃ r, drawPose pose w h flag = some r ∧
      r.height = 300 ∧ r.width = round ((300 : ℚ) * (w / h)) ∧
      ∀ j kp, pose.keypoints[j]? = some kp → (0.3 : ℚ) < kp.score →
        ((kp.x * ((r.width : ℚ) / w), kp.y * ((r.height : ℚ) / h)),
          (moveNetColors j).getD "#ef4444") ∈ r.points := by
  obtain ⟨segs, hsegs⟩ := drawPose_eq_some pose w h flag hlen
  refine ⟨_, hsegs, rfl, rfl, ?_⟩
  intro j kp hj hv
  have hmem := drawKeypointsAux_mem ((round ((300 : ℚ) * (w / h)) : ℚ) / w)
    ((300 : ℚ) / h) pose.keypoints 0 j kp hj hv
  rw [Nat.zero_add] at hmem
  simpa using hmem

/-- Witness for C7 (amended) at a 400×200 image: canvas width 600 and the
valid keypoint at image-space (200, 100) drawn at canvas position (300, 150). -/
theorem c7_renderer_geometry_witness :
    poseCenter.keypoints.length = 17 ∧
    ∃ r, drawPose poseCenter 400 200 true = some r ∧ r.height = 300 ∧
      r.width = 600 ∧ ((300 : ℚ), (150 : ℚ)) ∈ r.points.map Prod.fst := by
  have h17 : poseCenter.keypoints.length = 17 := by decide
  obtain ⟨r, hr, hh, hw, hmem⟩ := c7_renderer_geometry poseCenter 400 200 true h17
  have hw600 : r.width = 600 := by
    rw [hw, show (300 : ℚ) * (400 / 200) = 600 by norm_num]
    exact round_ofNat 600
  have hj : poseCenter.keypoints[0]? = some (kpc 200 100 0.9) := by
    norm_num [poseCenter]
  have hm := hmem 0 (kpc 200 100 0.9) hj (by norm_num)
  have hpx : (kpc 200 100 0.9).x * ((r.width : ℚ) / 400) = 300 := by
    rw [hw600]
    norm_num [kpc]
  have hpy : (kpc 200 100 0.9).y * ((r.height : ℚ) / 200) = 150 := by
    rw [hh]
    norm_num [kpc]
  rw [hpx, hpy] at hm
  exact ⟨h17, r, hr, hh, hw600, List.mem_map_of_mem Prod.fst hm⟩

/-- Counterexample for C7: on a 17-keypoint pose whose confidences are all 0,
nothing is drawn at all, so "draws every keypoint at its scaled position"
fails: the keypoint at image-space (200, 100) of a 400×200 image is not drawn
at (300, 150) or anywhere else. -/
theorem c7_counterexample :
    poseGhost.keypoints.length = 17 ∧
    ∃ r, drawPose poseGhost 400 200 true = some r ∧ r.points = [] ∧
      poseGhost.keypoints[0]? = some (kpc 200 100 0) ∧
      ((300 : ℚ), (150 : ℚ)) ∉ r.points.map Prod.fst := by
  have h17 : poseGhost.keypoints.length = 17 := by decide
  obtain ⟨segs, hr⟩ := drawPose_eq_some poseGhost 400 200 true h17
  have hpts : drawKeypointsAux ((round ((300 : ℚ) * (400 / 200)) : ℚ) / 400)
      ((300 : ℚ) / 200) poseGhost.keypoints 0 = [] := by
    norm_num [poseGhost, drawKeypointsAux]
  refine ⟨h17, _, hr, ?_, ?_, ?_⟩
  · simpa using hpts
  · norm_num [poseGhost]
  · simp [hpts]

/-- C10: for 17-keypoint poses every keypoint index accessed by
`calculateSimilarity` and by `drawPose`'s bone connections is in bounds, so
the `undefined`-access failure branch is unreachable and both functions
return a value. -/
theorem c10_in_bounds (p1 p2 pose : DetectedPose) (w h : ℚ) (flag : Bool)
    (h1 : p1.keypoints.length = 17) (h2 : p2.keypoints.length = 17)
    (h3 : pose.keypoints.length = 17) :
    (calculateSimilarity p1 p2).isSome = true ∧
      (drawPose pose w h flag).isSome = true := by
  constructor
  · rw [calculateSimilarity_eq p1 p2 h1 h2]
    rfl
  · obtain ⟨segs, hr⟩ := drawPose_eq_some pose w h flag h3
    rw [hr]
    rfl

/-- Witness for C10 at concrete poses. -/
theorem c10_in_bounds_witness :
    poseFull.keypoints.length = 17 ∧ poseShift.keypoints.length = 17 ∧
    poseCenter.keypoints.length = 17 ∧
    (calculateSimilarity poseFull poseShift).isSome = true ∧
      (drawPose poseCenter 400 200 false).isSome = true :=
  ⟨by decide, by decide, by decide,
    c10_in_bounds poseFull poseShift poseCenter 400 200 false
      (by decide) (by decide) (by decide)⟩

lemma mapWithNames_length : ∀ (l : List RawKeypoint) (i : ℕ),
    (mapWithNames l i).length = l.length := by
  intro l
  induction l with
  | nil => intro i; rfl
  | cons kp rest ih =>
    intro i
    simp [mapWithNames, ih]

lemma mapWithNames_getElem? : ∀ (l : List RawKeypoint) (i0 j : ℕ),
    (mapWithNames l i0)[j]? = (l[j]?).map
      (fun kp => ⟨kp.x, kp.y, kp.score.getD 0, keypointNames[i0 + j]?⟩) := by
  intro l
  induction l with
  | nil =>
    intro i0 j
    simp [mapWithNames]
  | cons kp rest ih =>
    intro i0 j
    cases j with
    | zero => simp [mapWithNames]
    | succ j' =>
      simp only [mapWithNames, List.getElem?_cons_succ]
      rw [ih (i0 + 1) j', show i0 + 1 + j' = i0 + (j' + 1) by omega]

/-- C8: the normalizer fails exactly on an empty estimate array (the
`NoPersonDetected` message), and otherwise maps the first estimate pointwise:
raw coordinates kept, a missing confidence defaulted to 0 and the positional
entry of the 17-entry anatomical name table attached. -/
theorem c8_normalizer :
    (∀ poses : List RawPose,
      normalizePose poses = Except.error "人物が検出されませんでした" ↔ poses = []) ∧
    ∀ (first : RawPose) (rest : List RawPose), ∃ p : DetectedPose,
      normalizePose (first :: rest) = Except.ok p ∧
      p.score = first.score.getD 0 ∧
      p.keypoints.length = first.keypoints.length ∧
      ∀ (j : ℕ) (kp : RawKeypoint), first.keypoints[j]? = some kp →
        p.keypoints[j]? =
          some (⟨kp.x, kp.y, kp.score.getD 0, keypointNames[j]?⟩ : Keypoint) := by
  constructor
  · intro poses
    cases poses with
    | nil => simp [normalizePose]
    | cons first rest => simp [normalizePose]
  · intro first rest
    refine ⟨⟨mapWithNames first.keypoints 0, first.score.getD 0⟩, rfl, rfl,
      mapWithNames_length _ _, ?_⟩
    intro j kp hj
    show (mapWithNames first.keypoints 0)[j]? = _
    rw [mapWithNames_getElem? first.keypoints 0 j, hj]
    simp

/-- Witness for C8: empty output errors; a sample with a missing confidence is
normalized with score 0 and the positional name. -/
theorem c8_normalizer_witness :
    normalizePose [] = Except.error "人物が検出されませんでした" ∧
    ∃ p, normalizePose [rawSample] = Except.ok p ∧ p.score = 0 ∧
      p.keypoints.length = 2 ∧
      p.keypoints[1]? = some ⟨30, 40, 0, some "left_eye"⟩ := by
  obtain ⟨herr, hok⟩ := c8_normalizer
  obtain ⟨p, hp, hscore, hlen, hidx⟩ := hok rawSample []
  refine ⟨(herr []).mpr rfl, p, hp, ?_, ?_, ?_⟩
  · rw [hscore]
    rfl
  · rw [hlen]
    rfl
  · have h1 : rawSample.keypoints[1]? = some ⟨30, 40, none⟩ := rfl
    rw [hidx 1 ⟨30, 40, none⟩ h1]
    rfl

/-- Witness for C5 (amended) at the concrete 7-valid vs 8-valid scenarios. -/
theorem c5_regime_boundary_witness :
    min (validCount poseA1.keypoints) (validCount poseA2.keypoints) = 7 ∧
    min (validCount poseB1.keypoints) (validCount poseB2.keypoints) = 8 ∧
    ∃ s7 s8 : ℤ, calculateSimilarity poseA1 poseA2 = some s7 ∧
      calculateSimilarity poseB1 poseB2 = some s8 ∧ s7 ≤ s8 := by
  have e1 : validCount poseA1.keypoints = 7 := by norm_num [validCount, poseA1]
  have e2 : validCount poseA2.keypoints = 7 := by norm_num [validCount, poseA2]
  have e3 : validCount poseB1.keypoints = 8 := by norm_num [validCount, poseB1]
  have e4 : validCount poseB2.keypoints = 8 := by norm_num [validCount, poseB2]
  have hm7 : min (validCount poseA1.keypoints) (validCount poseA2.keypoints) = 7 := by
    rw [e1, e2, min_self]
  have hm8 : min (validCount poseB1.keypoints) (validCount poseB2.keypoints) = 8 := by
    rw [e3, e4, min_self]
  have hpairs : pairsTotal poseA1.keypoints poseA2.keypoints =
      pairsTotal poseB1.keypoints poseB2.keypoints := by
    have hLA : pairsTotal poseA1.keypoints poseA2.keypoints =
        [(4.9 : ℝ), 4.9, 4.9, 4.9, 4.9, 4.9, 4.9] := by
      norm_num [poseA1, poseA2, pairsTotal, kpDist_490]
    have hLB : pairsTotal poseB1.keypoints poseB2.keypoints =
        [(4.9 : ℝ), 4.9, 4.9, 4.9, 4.9, 4.9, 4.9] := by
      norm_num [poseB1, poseB2, pairsTotal, kpDist_490]
    rw [hLA, hLB]
  exact ⟨hm7, hm8,
    c5_regime_boundary poseA1 poseA2 poseB1 poseB2
      (by decide) (by decide) (by decide) (by decide) hm7 hm8 hpairs⟩
